import Mathlib

/-!
Shallow embedding of the action registry/factory and the fan configuration
entity of the phosphor-fan-presence control core
(src/control/json/actions/action.hpp and src/control/json/fan.hpp),
with theorems settling the specification claims about them.
-/

namespace FanControl

/-- JSON values, the subset of shapes the configuration fragments use
(nlohmann::json in the source). -/
inductive Json where
  | null
  | bool (b : Bool)
  | num (n : Int)
  | str (s : String)
  | arr (items : List Json)
  | obj (fields : List (String × Json))

/-- Object-key lookup on a field list (first match, as nlohmann does). -/
def lookupField : List (String × Json) → String → Option Json
  | [], _ => none
  | (k, v) :: rest, key => if k = key then some v else lookupField rest key

/-- `j[key]` / `j.contains(key)` access on an object; `none` when the value
is not an object or the key is absent. -/
def Json.get? (j : Json) (key : String) : Option Json :=
  match j with
  | .obj fields => lookupField fields key
  | _ => none

/-- `get<std::string>()`: succeeds exactly on a JSON string. -/
def Json.asString : Json → Option String
  | .str s => some s
  | _ => none

/-- `get<std::vector<std::string>>()`: succeeds exactly on an array whose
elements are all strings. -/
def Json.asStringList : Json → Option (List String)
  | .arr items => items.mapM Json.asString
  | _ => none

/-- A concrete C++ behavior type `T` passed to `regAction<T>` /
`createAction<T>`. `tag` is the identity of the type; `declaredName` is its
static `T::name` used by the self-registration helper. -/
structure BehaviorType where
  tag : Nat
  declaredName : String
deriving DecidableEq

/-- `ActionBase` (action.hpp, lines 55-91): stores the construction name in
the const member `_name`. -/
structure ActionBase where
  name : String
deriving DecidableEq

/-- `ActionBase::getName` (action.hpp, line 83): returns `_name`; the field
is const and the class has no mutators, so the value is fixed for the
instance's lifetime. -/
def ActionBase.getName (a : ActionBase) : String :=
  a.name

/-- A live action object produced by a registered constructor: its concrete
type, its `ActionBase` part, and the configuration fragment it was built
from. -/
structure ActionInstance where
  typeTag : Nat
  base : ActionBase
  config : Json

/-- `getName` on a constructed action instance delegates to the
`ActionBase` part. -/
def ActionInstance.getName (a : ActionInstance) : String :=
  a.base.getName

/-- `createAction<T>(jsonObj)` (action.hpp, lines 44-48): constructs a new
instance of `T` from the fragment. That a concrete subtype forwards its
declared name to the `ActionBase` constructor is modelled from the spec
(the concrete action types are outside this core): instances carry the
registered type's `declaredName`. -/
def createAction (T : BehaviorType) (jsonObj : Json) : ActionInstance :=
  ⟨T.tag, ⟨T.declaredName⟩, jsonObj⟩

/-- The factory's registry `actions` (action.hpp, lines 177-179):
`std::map<std::string, constructor>` modelled as an association list kept
sorted by key; the stored `std::function` is always `&createAction<T>`, so
an entry records the `BehaviorType` it constructs. -/
abbrev Registry := List (String × BehaviorType)

/-- `actions.find(name)` on the registry. -/
def findAction : Registry → String → Option BehaviorType
  | [], _ => none
  | (k, v) :: rest, name => if k = name then some v else findAction rest name

/-- `actions[name] = ...` on an absent key: ordered insertion, as
`std::map` keeps entries sorted by key (replaces on an equal key). -/
def mapInsert : Registry → String → BehaviorType → Registry
  | [], name, T => [(name, T)]
  | (k, v) :: rest, name, T =>
    if name < k then (name, T) :: (k, v) :: rest
    else if name = k then (name, T) :: rest
    else (k, v) :: mapInsert rest name T

/-- The exception thrown by `regAction` on a name collision
("Actions with the same name found"). -/
inductive RegError where
  | alreadyRegistered (name : String)
deriving DecidableEq

/-- Result of a `regAction` call: the registry state after the call and
either the returned `true` or the thrown exception. -/
structure RegResult where
  registry : Registry
  outcome : Except RegError Bool

/-- `ActionFactory::regAction<T>(name)` (action.hpp, lines 123-139):
if `name` is absent, store `&createAction<T>` under `name` and return
`true`; otherwise log and throw, leaving the map untouched. -/
def regAction (T : BehaviorType) (name : String) (reg : Registry) : RegResult :=
  match findAction reg name with
  | none => ⟨mapInsert reg name T, .ok true⟩
  | some _ => ⟨reg, .error (.alreadyRegistered name)⟩

/-- The diagnostic string built by the miss branch of `getAction`
(action.hpp, lines 163-167): `std::accumulate(next(begin), end,
begin->first, join with ", ")`. On an empty registry `begin()` is the end
iterator and both `next(begin)` and `begin->first` are out of bounds, so
no string is produced (`none`). -/
def availableList (reg : Registry) : Option String :=
  match reg with
  | [] => none
  | first :: rest =>
    some (rest.foldl (fun list act => list ++ ", " ++ act.fst) first.fst)

/-- Failure outcomes of `getAction`: the documented
"Unsupported action name given" throw carrying the AVAILABLE_ACTIONS
diagnostic, and the out-of-bounds dereference of `actions.begin()` the
miss branch performs when the registry is empty. -/
inductive GetError where
  | notRegistered (name : String) (available : String)
  | emptyRegistryDeref
deriving DecidableEq

/-- Result of a `getAction` call: the registry state after the call and
either the constructed instance or the failure. -/
structure GetResult where
  registry : Registry
  outcome : Except GetError ActionInstance

/-- `ActionFactory::getAction(name, jsonObj)` (action.hpp, lines 152-173):
on a hit, invoke the stored constructor on the fragment; on a miss, build
the list of available actions and throw. Neither branch writes to the
map. -/
def getAction (name : String) (jsonObj : Json) (reg : Registry) : GetResult :=
  match findAction reg name with
  | some T => ⟨reg, .ok (createAction T jsonObj)⟩
  | none =>
    match availableList reg with
    | some acts => ⟨reg, .error (.notRegistered name acts)⟩
    | none => ⟨reg, .error .emptyRegistryDeref⟩

/-- Well-formedness of the registry as the `std::map` representation
invariant: entries strictly sorted by key. -/
def RegWF (reg : Registry) : Prop :=
  List.Pairwise (fun a b => a.fst < b.fst) reg

/-- `ActionRegister<T>` (action.hpp, lines 188-207): self-registration
registers `T` under its own `T::name`. -/
def selfRegister (T : BehaviorType) (reg : Registry) : RegResult :=
  regAction T T.declaredName reg

/-- A registry populated only through self-registration: every entry's key
is the declared name of the type it constructs. -/
def SelfRegistered (reg : Registry) : Prop :=
  ∀ e ∈ reg, (e : String × BehaviorType).snd.declaredName = e.fst

/-- A comma-joined rendering of a list of names, the shape the diagnostic
string is claimed to have. -/
def joinComma : List String → String
  | [] => ""
  | [s] => s
  | s :: rest => s ++ ", " ++ joinComma rest

/-- Whether a `getAction` result is the documented unregistered-name
failure carrying an available-actions diagnostic. -/
def reportsAvailable (r : GetResult) : Bool :=
  match r.outcome with
  | .error (.notRegistered _ _) => true
  | _ => false

/-- `ConfigBase` (config_base.hpp, consumed by fan.hpp): the common
configuration-entity data. Modelled from the spec: a mandatory stable
`name` and an optional `profiles` list defaulting to empty. -/
structure ConfigBase where
  name : String
  profiles : List String
deriving DecidableEq

/-- `Fan` (fan.hpp, lines 41-128): the fan configuration entity with its
zone, sensors and target interface on top of the `ConfigBase` data. -/
structure Fan where
  base : ConfigBase
  zone : String
  sensors : List String
  interface : String
deriving DecidableEq

/-- `Fan::getProfiles` (fan.hpp, lines 68-71). -/
def Fan.getProfiles (f : Fan) : List String :=
  f.base.profiles

/-- `Fan::getZone` (fan.hpp, lines 78-81). -/
def Fan.getZone (f : Fan) : String :=
  f.zone

/-- `Fan::getSensors` (fan.hpp, lines 88-91). -/
def Fan.getSensors (f : Fan) : List String :=
  f.sensors

/-- `Fan::getInterface` (fan.hpp, lines 98-101). -/
def Fan.getInterface (f : Fan) : String :=
  f.interface

/-- The construction failure for a configuration entity, identifying the
offending field. -/
inductive FanError where
  | missingOrBadField (field : String)
deriving DecidableEq

/-- Modelled from the spec: the `Fan` constructor body lives in fan.cpp,
which is not part of this core's sources; per the spec it parses the
mandatory `name` (ConfigBase) and `zone`, `sensors`, `interface` fields,
failing construction when one is missing or type-mismatched, and reads the
optional `profiles` array, defaulting to the empty list when the key is
absent. -/
def Fan.ofJson (jsonObj : Json) : Except FanError Fan :=
  match (jsonObj.get? "name").bind Json.asString with
  | none => .error (.missingOrBadField "name")
  | some name =>
    match
      match jsonObj.get? "profiles" with
      | none => some []
      | some pj => pj.asStringList
    with
    | none => .error (.missingOrBadField "profiles")
    | some profiles =>
      match (jsonObj.get? "zone").bind Json.asString with
      | none => .error (.missingOrBadField "zone")
      | some zone =>
        match (jsonObj.get? "sensors").bind Json.asStringList with
        | none => .error (.missingOrBadField "sensors")
        | some sensors =>
          match (jsonObj.get? "interface").bind Json.asString with
          | none => .error (.missingOrBadField "interface")
          | some iface => .ok ⟨⟨name, profiles⟩, zone, sensors, iface⟩

/-- Modelled from the spec: the profile-matching predicate (used by the
external zone engine over `getProfiles()`): an entity is active iff its
profile list is empty or at least one of its profiles is in the supplied
active-profile set. -/
def isActive (profiles activeProfiles : List String) : Bool :=
  profiles.isEmpty || profiles.any (fun p => activeProfiles.contains p)

/-- Whether constructing a `Fan` from the fragment fails. -/
def fanConstructionFails (j : Json) : Bool :=
  match Fan.ofJson j with
  | .error _ => true
  | .ok _ => false

/-- The end-to-end scenario 4 fragment:
`\x7b"name":"fan0","zone":"zone1","sensors":["fan0_tach"],"interface":"xyz.Target"\x7d`. -/
def fan0Fragment : Json :=
  .obj [("name", .str "fan0"), ("zone", .str "zone1"),
        ("sensors", .arr [.str "fan0_tach"]), ("interface", .str "xyz.Target")]

/-- A registry state reachable through two `regAction` calls that register
the same behavior type (tag 0, declared name "a") under the two distinct
names "a" and "b"; `regAction` is public and keys only on the name, so
nothing prevents this. -/
def twoNamesOneType : Registry :=
  (regAction ⟨0, "a"⟩ "b" (regAction (⟨0, "a"⟩ : BehaviorType) "a" []).registry).registry

theorem mem_of_findAction {reg : Registry} {n : String} {T : BehaviorType}
    (h : findAction reg n = some T) : (n, T) ∈ reg := by
  induction reg with
  | nil => simp [findAction] at h
  | cons e rest ih =>
    obtain ⟨k, v⟩ := e
    simp only [findAction] at h
    split at h
    · next hk =>
      cases h
      subst hk
      exact List.mem_cons_self _ _
    · exact List.mem_cons_of_mem _ (ih h)

theorem findAction_mapInsert_self {reg : Registry} {name : String}
    (T : BehaviorType) (h : findAction reg name = none) :
    findAction (mapInsert reg name T) name = some T := by
  induction reg with
  | nil => simp [mapInsert, findAction]
  | cons e rest ih =>
    obtain ⟨k, v⟩ := e
    simp only [findAction] at h
    split at h
    · exact absurd h (by simp)
    · next hk =>
      simp only [mapInsert]
      by_cases hlt : name < k
      · simp [hlt, findAction]
      · have hne : ¬ name = k := fun hc => hk hc.symm
        simp only [if_neg hlt, if_neg hne, findAction, if_neg hk]
        exact ih h

theorem findAction_mapInsert_ne {reg : Registry} {name n : String}
    (T : BehaviorType) (hne : n ≠ name) :
    findAction (mapInsert reg name T) n = findAction reg n := by
  have hne2 : ¬ name = n := fun h => hne h.symm
  induction reg with
  | nil => simp [mapInsert, findAction, hne2]
  | cons e rest ih =>
    obtain ⟨k, v⟩ := e
    simp only [mapInsert]
    by_cases hlt : name < k
    · rw [if_pos hlt]
      simp only [findAction, if_neg hne2]
    · rw [if_neg hlt]
      by_cases heq : name = k
      · subst heq
        rw [if_pos rfl]
        simp only [findAction, if_neg hne2]
      · rw [if_neg heq]
        simp only [findAction]
        by_cases hkn : k = n
        · rw [if_pos hkn, if_pos hkn]
        · rw [if_neg hkn, if_neg hkn, ih]

theorem length_mapInsert {reg : Registry} {name : String}
    (T : BehaviorType) (h : findAction reg name = none) :
    (mapInsert reg name T).length = reg.length + 1 := by
  induction reg with
  | nil => simp [mapInsert]
  | cons e rest ih =>
    obtain ⟨k, v⟩ := e
    simp only [findAction] at h
    split at h
    · exact absurd h (by simp)
    · next hk =>
      have hne : ¬ name = k := fun hc => hk hc.symm
      simp only [mapInsert]
      by_cases hlt : name < k
      · rw [if_pos hlt]
        simp [List.length_cons]
      · rw [if_neg hlt, if_neg hne]
        simp only [List.length_cons, ih h]

theorem mem_mapInsert {reg : Registry} {name : String} {T : BehaviorType}
    {e : String × BehaviorType} (h : e ∈ mapInsert reg name T) :
    e = (name, T) ∨ e ∈ reg := by
  induction reg with
  | nil => simpa [mapInsert] using h
  | cons f rest ih =>
    obtain ⟨k, v⟩ := f
    simp only [mapInsert] at h
    by_cases hlt : name < k
    · rw [if_pos hlt] at h
      rcases List.mem_cons.mp h with h1 | h2
      · exact Or.inl h1
      · exact Or.inr h2
    · rw [if_neg hlt] at h
      by_cases heq : name = k
      · rw [if_pos heq] at h
        rcases List.mem_cons.mp h with h1 | h2
        · exact Or.inl h1
        · exact Or.inr (List.mem_cons_of_mem _ h2)
      · rw [if_neg heq] at h
        rcases List.mem_cons.mp h with h1 | h2
        · exact Or.inr (List.mem_cons.mpr (Or.inl h1))
        · rcases ih h2 with h3 | h4
          · exact Or.inl h3
          · exact Or.inr (List.mem_cons_of_mem _ h4)

theorem regWF_mapInsert {reg : Registry} {name : String} {T : BehaviorType}
    (h : RegWF reg) : RegWF (mapInsert reg name T) := by
  induction reg with
  | nil => simp [mapInsert, RegWF]
  | cons e rest ih =>
    obtain ⟨k, v⟩ := e
    rw [RegWF, List.pairwise_cons] at h
    obtain ⟨hk, hrest⟩ := h
    simp only [mapInsert]
    by_cases hlt : name < k
    · rw [if_pos hlt, RegWF, List.pairwise_cons]
      refine ⟨?_, ?_⟩
      · intro b hb
        rcases List.mem_cons.mp hb with h1 | h2
        · subst h1; exact hlt
        · exact lt_trans hlt (hk b h2)
      · rw [List.pairwise_cons]
        exact ⟨hk, hrest⟩
    · rw [if_neg hlt]
      by_cases heq : name = k
      · rw [if_pos heq, RegWF, List.pairwise_cons]
        subst heq
        exact ⟨hk, hrest⟩
      · rw [if_neg heq, RegWF, List.pairwise_cons]
        refine ⟨?_, ih hrest⟩
        intro b hb
        rcases mem_mapInsert hb with h1 | h2
        · subst h1
          rcases lt_trichotomy k name with h3 | h3 | h3
          · exact h3
          · exact absurd h3.symm heq
          · exact absurd h3 hlt
        · exact hk b h2

theorem foldl_join (rest : Registry) (init : String) :
    rest.foldl (fun list act => list ++ ", " ++ act.fst) init =
      joinComma (init :: rest.map Prod.fst) := by
  induction rest generalizing init with
  | nil => simp [joinComma]
  | cons e tail ih =>
    simp only [List.foldl_cons, List.map_cons, ih]
    cases tail with
    | nil => simp [joinComma]
    | cons f tail2 =>
      simp only [List.map_cons, joinComma]
      simp [String.append_assoc]

theorem availableList_eq_joinComma {reg : Registry} (h : reg ≠ []) :
    availableList reg = some (joinComma (reg.map Prod.fst)) := by
  cases reg with
  | nil => exact absurd rfl h
  | cons first rest =>
    simp only [availableList, List.map_cons, foldl_join]

theorem findAction_isSome_iff_mem_keys (reg : Registry) (n : String) :
    (∃ c, findAction reg n = some c) ↔ n ∈ reg.map Prod.fst := by
  induction reg with
  | nil => simp [findAction]
  | cons e rest ih =>
    obtain ⟨k, v⟩ := e
    simp only [findAction, List.map_cons, List.mem_cons]
    by_cases hk : k = n
    · simp [hk]
    · simp only [if_neg hk, ih]
      constructor
      · intro h3; exact Or.inr h3
      · intro h3
        rcases h3 with h4 | h5
        · exact absurd h4.symm hk
        · exact h5

theorem keys_sorted_of_wf {reg : Registry} (h : RegWF reg) :
    List.Pairwise (· < ·) (reg.map Prod.fst) :=
  List.Pairwise.map Prod.fst (fun _ _ hab => hab) h

theorem keys_nodup_of_wf {reg : Registry} (h : RegWF reg) :
    (reg.map Prod.fst).Nodup :=
  (keys_sorted_of_wf h).imp ne_of_lt

theorem selfRegistered_selfRegister {reg : Registry} (T : BehaviorType)
    (h : SelfRegistered reg) : SelfRegistered (selfRegister T reg).registry := by
  rw [selfRegister, regAction]
  cases hf : findAction reg T.declaredName with
  | none =>
    intro e he
    rcases mem_mapInsert he with h1 | h2
    · subst h1; rfl
    · exact h e h2
  | some _ => exact h

/-- C1: for every registry state and every name already present in it,
`regAction<T>(name)` throws the collision exception for every behavior
type `T` (the same type as the registered one or a different one), and the
registry is unchanged by the failed call: the existing entry is not
overwritten and no entry is added or removed. -/
theorem c1_regAction_collision_throws (reg : Registry) (name : String)
    (T T0 : BehaviorType) (h : findAction reg name = some T0) :
    (regAction T name reg).outcome = .error (.alreadyRegistered name) ∧
    (regAction T name reg).registry = reg := by
  simp [regAction, h]

/-- Witness for C1: re-registering "set_speed" (under a different behavior
type) on a one-entry registry throws and leaves the registry intact. -/
theorem c1_regAction_collision_throws_witness :
    findAction [("set_speed", (⟨1, "set_speed"⟩ : BehaviorType))] "set_speed"
      = some ⟨1, "set_speed"⟩ ∧
    (regAction ⟨2, "other"⟩ "set_speed"
        [("set_speed", (⟨1, "set_speed"⟩ : BehaviorType))]).outcome
      = .error (.alreadyRegistered "set_speed") ∧
    (regAction ⟨2, "other"⟩ "set_speed"
        [("set_speed", (⟨1, "set_speed"⟩ : BehaviorType))]).registry
      = [("set_speed", ⟨1, "set_speed"⟩)] :=
  have h := c1_regAction_collision_throws
    [("set_speed", ⟨1, "set_speed"⟩)] "set_speed" ⟨2, "other"⟩ ⟨1, "set_speed"⟩ rfl
  ⟨rfl, h.1, h.2⟩

/-- C4: for every name not already present, `regAction<T>(name)` succeeds
returning `true`; afterwards the registry maps that name to `T`'s
constructor, every other name resolves exactly as before, and exactly one
entry was added. -/
theorem c4_regAction_fresh_adds_one (reg : Registry) (T : BehaviorType)
    (name : String) (h : findAction reg name = none) :
    (regAction T name reg).outcome = .ok true ∧
    findAction (regAction T name reg).registry name = some T ∧
    (∀ n, n ≠ name →
      findAction (regAction T name reg).registry n = findAction reg n) ∧
    (regAction T name reg).registry.length = reg.length + 1 := by
  simp only [regAction, h]
  exact ⟨trivial, findAction_mapInsert_self T h,
    fun n hn => findAction_mapInsert_ne T hn, length_mapInsert T h⟩

/-- Witness for C4: registering "set_speed" in the empty registry. -/
theorem c4_regAction_fresh_adds_one_witness :
    findAction [] "set_speed" = none ∧
    (regAction (⟨1, "set_speed"⟩ : BehaviorType) "set_speed" []).outcome = .ok true ∧
    findAction (regAction (⟨1, "set_speed"⟩ : BehaviorType) "set_speed" []).registry
        "set_speed" = some ⟨1, "set_speed"⟩ ∧
    findAction (regAction (⟨1, "set_speed"⟩ : BehaviorType) "set_speed" []).registry
        "other" = findAction [] "other" ∧
    (regAction (⟨1, "set_speed"⟩ : BehaviorType) "set_speed" []).registry.length
      = ([] : Registry).length + 1 :=
  have h := c4_regAction_fresh_adds_one [] ⟨1, "set_speed"⟩ "set_speed" rfl
  ⟨rfl, h.1, h.2.1, h.2.2.1 "other" (by decide), h.2.2.2⟩

/-- C8: the registry only grows. Resolution (`getAction`) leaves the
registry unchanged in every case, a registered name's constructor mapping
survives any further `regAction` call unchanged, `regAction` never changes
the binding of any other name, and it grows the registry by at most one
entry. -/
theorem c8_registry_only_grows (reg : Registry) :
    (∀ name j, (getAction name j reg).registry = reg) ∧
    (∀ T name n c, findAction reg n = some c →
      findAction (regAction T name reg).registry n = some c) ∧
    (∀ T name n, n ≠ name →
      findAction (regAction T name reg).registry n = findAction reg n) ∧
    (∀ T name, (regAction T name reg).registry.length ≤ reg.length + 1) := by
  refine ⟨?_, ?_, ?_, ?_⟩
  · intro name j
    cases hf : findAction reg name with
    | some T => simp [getAction, hf]
    | none =>
      cases ha : availableList reg with
      | some acts => simp [getAction, hf, ha]
      | none => simp [getAction, hf, ha]
  · intro T name n c h
    cases hf : findAction reg name with
    | none =>
      have hne : n ≠ name := by
        intro he
        subst he
        rw [h] at hf
        cases hf
      simp only [regAction, hf]
      rw [findAction_mapInsert_ne T hne, h]
    | some T0 =>
      simp only [regAction, hf]
      exact h
  · intro T name n hn
    cases hf : findAction reg name with
    | none =>
      simp only [regAction, hf]
      exact findAction_mapInsert_ne T hn
    | some T0 => simp [regAction, hf]
  · intro T name
    cases hf : findAction reg name with
    | none =>
      simp only [regAction, hf]
      rw [length_mapInsert T hf]
    | some T0 =>
      simp only [regAction, hf]
      exact Nat.le_succ _

/-- Witness for C8: on a one-entry registry, a failed lookup leaves the
registry as is and a fresh registration preserves the existing binding. -/
theorem c8_registry_only_grows_witness :
    (getAction "x" Json.null [("a", (⟨0, "a"⟩ : BehaviorType))]).registry
      = [("a", ⟨0, "a"⟩)] ∧
    findAction [("a", (⟨0, "a"⟩ : BehaviorType))] "a" = some ⟨0, "a"⟩ ∧
    findAction (regAction (⟨1, "b"⟩ : BehaviorType) "b"
        [("a", (⟨0, "a"⟩ : BehaviorType))]).registry "a" = some ⟨0, "a"⟩ :=
  have h := c8_registry_only_grows [("a", ⟨0, "a"⟩)]
  ⟨h.1 "x" Json.null, rfl, h.2.1 ⟨1, "b"⟩ "b" "a" ⟨0, "a"⟩ rfl⟩

/-- C9: the unknown-name branch of `getAction` seeds its diagnostic from
the first registry entry, so it produces the documented failure exactly
when at least one action is registered; on the empty registry the branch
dereferences `actions.begin()` out of bounds instead. -/
theorem c9_error_branch_needs_nonempty (reg : Registry) (name : String)
    (j : Json) (h : findAction reg name = none) :
    (reportsAvailable (getAction name j reg) = true ↔ reg ≠ []) ∧
    (reg = [] → (getAction name j reg).outcome = .error .emptyRegistryDeref) := by
  cases reg with
  | nil =>
    constructor
    · constructor
      · intro hr
        simp [getAction, findAction, availableList, reportsAvailable] at hr
      · intro hne
        exact absurd rfl hne
    · intro _
      simp [getAction, findAction, availableList]
  | cons first rest =>
    constructor
    · constructor
      · intro _
        simp
      · intro _
        simp [getAction, h, availableList, reportsAvailable]
    · intro hcon
      simp at hcon

/-- Witness for C9: looking up an unregistered name on a one-entry
registry produces the documented diagnostic failure. -/
theorem c9_error_branch_needs_nonempty_witness :
    findAction [("a", (⟨0, "a"⟩ : BehaviorType))] "x" = none ∧
    reportsAvailable (getAction "x" Json.null [("a", (⟨0, "a"⟩ : BehaviorType))])
      = true :=
  ⟨rfl, (c9_error_branch_needs_nonempty [("a", ⟨0, "a"⟩)] "x" Json.null rfl).1.mpr
    (by simp)⟩

/-- C2 counterexample: on the empty registry (no action registered), an
unregistered-name lookup does not produce the documented throw with the
registered-name enumeration; the miss branch dereferences the first
registry entry, which does not exist (`std::next(actions.begin())` and
`actions.begin()->first` on an empty map are out of bounds). -/
theorem c2_counterexample_empty_registry :
    findAction [] "set_speed" = none ∧
    reportsAvailable (getAction "set_speed" Json.null []) = false ∧
    (getAction "set_speed" Json.null []).outcome = .error .emptyRegistryDeref :=
  ⟨rfl, rfl, rfl⟩

/-- C2 (amended): for every name not present in a NON-EMPTY registry,
`getAction` fails by throwing, and the failure report enumerates exactly
the currently registered names, comma-joined; a name is in the enumerated
key list iff it is registered. -/
theorem c2_unknown_name_reports_all_names (reg : Registry) (name : String)
    (j : Json) (hne : reg ≠ []) (h : findAction reg name = none) :
    (getAction name j reg).outcome
      = .error (.notRegistered name (joinComma (reg.map Prod.fst))) ∧
    (∀ n, n ∈ reg.map Prod.fst ↔ ∃ c, findAction reg n = some c) := by
  constructor
  · simp [getAction, h, availableList_eq_joinComma hne]
  · intro n
    exact (findAction_isSome_iff_mem_keys reg n).symm

/-- Witness for the amended C2: a miss on a two-entry registry reports
both registered names. -/
theorem c2_unknown_name_reports_all_names_witness :
    (([("a", (⟨0, "a"⟩ : BehaviorType)), ("b", ⟨1, "b"⟩)] : Registry) ≠ []) ∧
    findAction [("a", (⟨0, "a"⟩ : BehaviorType)), ("b", ⟨1, "b"⟩)] "x" = none ∧
    (getAction "x" Json.null
        [("a", (⟨0, "a"⟩ : BehaviorType)), ("b", ⟨1, "b"⟩)]).outcome
      = .error (.notRegistered "x" (joinComma
          (([("a", (⟨0, "a"⟩ : BehaviorType)), ("b", ⟨1, "b"⟩)] : Registry).map
            Prod.fst))) :=
  ⟨by simp, rfl,
    (c2_unknown_name_reports_all_names [("a", ⟨0, "a"⟩), ("b", ⟨1, "b"⟩)] "x"
      Json.null (by simp) rfl).1⟩

/-- C3 counterexample: `regAction` keys only on the name, so one behavior
type (tag 0) can be registered under the two distinct names "a" and "b";
then resolving "a" does construct the behavior type registered under "b",
refuting the claim's universal "consequently" clause. -/
theorem c3_counterexample_shared_type :
    ("a" : String) ≠ "b" ∧
    findAction twoNamesOneType "a" = some ⟨0, "a"⟩ ∧
    findAction twoNamesOneType "b" = some ⟨0, "a"⟩ ∧
    (getAction "a" Json.null twoNamesOneType).outcome
      = .ok (createAction ⟨0, "a"⟩ Json.null) ∧
    (createAction (⟨0, "a"⟩ : BehaviorType) Json.null).typeTag
      = (⟨0, "a"⟩ : BehaviorType).tag := by
  have hstep : twoNamesOneType
      = mapInsert [("a", (⟨0, "a"⟩ : BehaviorType))] "b" ⟨0, "a"⟩ := rfl
  have hne : ("a" : String) ≠ "b" := by decide
  have h2 : findAction twoNamesOneType "a" = some ⟨0, "a"⟩ := by
    rw [hstep, findAction_mapInsert_ne _ hne]
    rfl
  have h3 : findAction twoNamesOneType "b" = some ⟨0, "a"⟩ := by
    rw [hstep]
    exact findAction_mapInsert_self _ rfl
  refine ⟨hne, h2, h3, ?_, rfl⟩
  simp [getAction, h2]

/-- C3 (amended): resolving a registered name returns exactly the stored
constructor applied to the fragment, a newly constructed instance of the
type registered under that name; hence, for two distinct registered names
whose registered behavior types differ, resolving one never constructs
the other's type. (Without the distinct-type proviso the claim fails: the
same type may be registered under two names.) -/
theorem c3_resolution_invokes_stored_ctor (reg : Registry) (name : String)
    (T : BehaviorType) (j : Json) (h : findAction reg name = some T) :
    (getAction name j reg).outcome = .ok (createAction T j) ∧
    (createAction T j).typeTag = T.tag ∧
    (∀ n2 T2, findAction reg n2 = some T2 → T2.tag ≠ T.tag →
      (createAction T j).typeTag ≠ T2.tag) := by
  refine ⟨by simp [getAction, h], rfl, ?_⟩
  intro n2 T2 _ hne
  exact fun he => hne he.symm

/-- Witness for the amended C3: with types 0 and 1 under "a" and "b",
resolving "a" yields type 0, not type 1. -/
theorem c3_resolution_invokes_stored_ctor_witness :
    findAction [("a", (⟨0, "a"⟩ : BehaviorType)), ("b", ⟨1, "b"⟩)] "a"
      = some ⟨0, "a"⟩ ∧
    (getAction "a" Json.null
        [("a", (⟨0, "a"⟩ : BehaviorType)), ("b", ⟨1, "b"⟩)]).outcome
      = .ok (createAction ⟨0, "a"⟩ Json.null) ∧
    findAction [("a", (⟨0, "a"⟩ : BehaviorType)), ("b", ⟨1, "b"⟩)] "b"
      = some ⟨1, "b"⟩ ∧
    (createAction (⟨0, "a"⟩ : BehaviorType) Json.null).typeTag
      ≠ (⟨1, "b"⟩ : BehaviorType).tag :=
  have h := c3_resolution_invokes_stored_ctor
    [("a", ⟨0, "a"⟩), ("b", ⟨1, "b"⟩)] "a" ⟨0, "a"⟩ Json.null rfl
  ⟨rfl, h.1, rfl, h.2.2 "b" ⟨1, "b"⟩ rfl (by decide)⟩

/-- C10: on a miss against a non-empty registry, the diagnostic string is
the registered names joined by ", "; the registry being an ordered map,
those names are pairwise distinct (each appears exactly once) and in
strictly increasing lexicographic order, and they are exactly the
registered names. -/
theorem c10_diagnostic_sorted_unique (reg : Registry) (name : String)
    (j : Json) (hwf : RegWF reg) (hne : reg ≠ [])
    (h : findAction reg name = none) :
    (getAction name j reg).outcome
      = .error (.notRegistered name (joinComma (reg.map Prod.fst))) ∧
    (reg.map Prod.fst).Nodup ∧
    List.Pairwise (· < ·) (reg.map Prod.fst) ∧
    (∀ n, n ∈ reg.map Prod.fst ↔ ∃ c, findAction reg n = some c) := by
  refine ⟨?_, keys_nodup_of_wf hwf, keys_sorted_of_wf hwf,
    fun n => (findAction_isSome_iff_mem_keys reg n).symm⟩
  simp [getAction, h, availableList_eq_joinComma hne]

/-- Witness for C10 on a sorted two-entry registry. -/
theorem c10_diagnostic_sorted_unique_witness :
    RegWF [("a", (⟨0, "a"⟩ : BehaviorType)), ("b", ⟨1, "b"⟩)] ∧
    (getAction "x" Json.null
        [("a", (⟨0, "a"⟩ : BehaviorType)), ("b", ⟨1, "b"⟩)]).outcome
      = .error (.notRegistered "x" (joinComma
          (([("a", (⟨0, "a"⟩ : BehaviorType)), ("b", ⟨1, "b"⟩)] : Registry).map
            Prod.fst))) ∧
    (([("a", (⟨0, "a"⟩ : BehaviorType)), ("b", ⟨1, "b"⟩)] : Registry).map
      Prod.fst).Nodup :=
  have hwf : RegWF [("a", (⟨0, "a"⟩ : BehaviorType)), ("b", ⟨1, "b"⟩)] := by
    rw [RegWF]
    refine List.Pairwise.cons ?_ ?_
    · intro b hb
      rw [List.mem_singleton] at hb
      subst hb
      rw [String.lt_iff_toList_lt]
      decide
    · simp
  have h := c10_diagnostic_sorted_unique
    [("a", ⟨0, "a"⟩), ("b", ⟨1, "b"⟩)] "x" Json.null hwf (by simp) rfl
  ⟨hwf, h.1, h.2.1⟩


/-- C5: an Action carries the name it was constructed under: `getName`
returns exactly that name, and since `_name` is const and the class has no
mutators the value is the same on every call over the instance's
lifetime; moreover, on a self-registered registry (each behavior type
registered under its own declared name, as `ActionRegister` does),
resolving a registered name such as "set_speed" yields an instance whose
`getName` equals the resolved name. -/
theorem c5_getName_returns_construction_name :
    (∀ s : String, (ActionBase.mk s).getName = s) ∧
    (∀ (reg : Registry), SelfRegistered reg → ∀ (name : String) (j : Json)
      (T : BehaviorType), findAction reg name = some T →
      (getAction name j reg).outcome = .ok (createAction T j) ∧
      (createAction T j).getName = name) := by
  refine ⟨fun s => rfl, ?_⟩
  intro reg hself name j T h
  refine ⟨by simp [getAction, h], ?_⟩
  have hmem := mem_of_findAction h
  have hname := hself _ hmem
  simpa [createAction, ActionInstance.getName, ActionBase.getName] using hname

/-- Witness for C5: resolving "set_speed" on a self-registered one-entry
registry yields an instance named "set_speed". -/
theorem c5_getName_returns_construction_name_witness :
    (ActionBase.mk "set_speed").getName = "set_speed" ∧
    SelfRegistered [("set_speed", (⟨1, "set_speed"⟩ : BehaviorType))] ∧
    findAction [("set_speed", (⟨1, "set_speed"⟩ : BehaviorType))] "set_speed"
      = some ⟨1, "set_speed"⟩ ∧
    (getAction "set_speed" Json.null
        [("set_speed", (⟨1, "set_speed"⟩ : BehaviorType))]).outcome
      = .ok (createAction ⟨1, "set_speed"⟩ Json.null) ∧
    (createAction (⟨1, "set_speed"⟩ : BehaviorType) Json.null).getName
      = "set_speed" :=
  have hself : SelfRegistered [("set_speed", (⟨1, "set_speed"⟩ : BehaviorType))] := by
    intro e he
    rw [List.mem_singleton] at he
    subst he
    rfl
  have h := c5_getName_returns_construction_name.2 _ hself "set_speed" Json.null
    ⟨1, "set_speed"⟩ rfl
  ⟨c5_getName_returns_construction_name.1 "set_speed", hself, rfl, h.1, h.2⟩

/-- C6: Fan construction fails when `zone`, `sensors` or `interface` is
missing or of the wrong type; when the mandatory fields (including
ConfigBase's `name`) parse and no `profiles` key is given, construction
succeeds with exactly the parsed zone, sensors and interface and an empty
profile list; in particular the scenario-4 fragment yields zone "zone1",
sensors ["fan0_tach"], empty profiles. -/
theorem c6_fan_mandatory_fields :
    (∀ j : Json, (j.get? "zone").bind Json.asString = none →
      fanConstructionFails j = true) ∧
    (∀ j : Json, (j.get? "sensors").bind Json.asStringList = none →
      fanConstructionFails j = true) ∧
    (∀ j : Json, (j.get? "interface").bind Json.asString = none →
      fanConstructionFails j = true) ∧
    (∀ (j : Json) (name zone iface : String) (sensors : List String),
      (j.get? "name").bind Json.asString = some name →
      j.get? "profiles" = none →
      (j.get? "zone").bind Json.asString = some zone →
      (j.get? "sensors").bind Json.asStringList = some sensors →
      (j.get? "interface").bind Json.asString = some iface →
      Fan.ofJson j = .ok ⟨⟨name, []⟩, zone, sensors, iface⟩ ∧
      (Fan.mk ⟨name, []⟩ zone sensors iface).getZone = zone ∧
      (Fan.mk ⟨name, []⟩ zone sensors iface).getSensors = sensors ∧
      (Fan.mk ⟨name, []⟩ zone sensors iface).getInterface = iface ∧
      (Fan.mk ⟨name, []⟩ zone sensors iface).getProfiles = []) ∧
    Fan.ofJson fan0Fragment
      = .ok ⟨⟨"fan0", []⟩, "zone1", ["fan0_tach"], "xyz.Target"⟩ := by
  refine ⟨?_, ?_, ?_, ?_, ?_⟩
  · intro j hz
    cases hn : (j.get? "name").bind Json.asString with
    | none => simp [fanConstructionFails, Fan.ofJson, hn]
    | some name =>
      cases hp : (match j.get? "profiles" with
        | none => some []
        | some pj => pj.asStringList) with
      | none => simp [fanConstructionFails, Fan.ofJson, hn, hp]
      | some profiles => simp [fanConstructionFails, Fan.ofJson, hn, hp, hz]
  · intro j hs
    cases hn : (j.get? "name").bind Json.asString with
    | none => simp [fanConstructionFails, Fan.ofJson, hn]
    | some name =>
      cases hp : (match j.get? "profiles" with
        | none => some []
        | some pj => pj.asStringList) with
      | none => simp [fanConstructionFails, Fan.ofJson, hn, hp]
      | some profiles =>
        cases hz : (j.get? "zone").bind Json.asString with
        | none => simp [fanConstructionFails, Fan.ofJson, hn, hp, hz]
        | some zone => simp [fanConstructionFails, Fan.ofJson, hn, hp, hz, hs]
  · intro j hi
    cases hn : (j.get? "name").bind Json.asString with
    | none => simp [fanConstructionFails, Fan.ofJson, hn]
    | some name =>
      cases hp : (match j.get? "profiles" with
        | none => some []
        | some pj => pj.asStringList) with
      | none => simp [fanConstructionFails, Fan.ofJson, hn, hp]
      | some profiles =>
        cases hz : (j.get? "zone").bind Json.asString with
        | none => simp [fanConstructionFails, Fan.ofJson, hn, hp, hz]
        | some zone =>
          cases hs : (j.get? "sensors").bind Json.asStringList with
          | none => simp [fanConstructionFails, Fan.ofJson, hn, hp, hz, hs]
          | some sensors =>
            simp [fanConstructionFails, Fan.ofJson, hn, hp, hz, hs, hi]
  · intro j name zone iface sensors hn hp hz hs hi
    refine ⟨?_, rfl, rfl, rfl, rfl⟩
    simp only [Fan.ofJson, hn, hp, hz, hs, hi]
  · rfl

/-- Witness for C6: a fragment with only a name fails (no zone), and the
scenario-4 fragment constructs with the parsed values and no profiles. -/
theorem c6_fan_mandatory_fields_witness :
    (Json.obj [("name", Json.str "f")]).get? "zone" = none ∧
    fanConstructionFails (Json.obj [("name", Json.str "f")]) = true ∧
    (fan0Fragment.get? "name").bind Json.asString = some "fan0" ∧
    fan0Fragment.get? "profiles" = none ∧
    Fan.ofJson fan0Fragment
      = .ok ⟨⟨"fan0", []⟩, "zone1", ["fan0_tach"], "xyz.Target"⟩ :=
  have hfail := c6_fan_mandatory_fields.1 (Json.obj [("name", Json.str "f")]) rfl
  have hok := (c6_fan_mandatory_fields.2.2.2.1 fan0Fragment "fan0" "zone1"
    "xyz.Target" ["fan0_tach"] rfl rfl rfl rfl rfl).1
  ⟨rfl, hfail, rfl, rfl, hok⟩

/-- C7: profile matching is a pure function of the entity's profile list
and the supplied active-profile set: an entity (e.g. a Fan) is active iff
its profile list is empty or at least one of its profiles is in the
active set; a Fan with profiles ["P1", "P2"] is active exactly when the
active set contains "P1" or "P2". -/
theorem c7_profile_matching_pure :
    (∀ (f : Fan) (active : List String),
      isActive f.getProfiles active = true ↔
        f.getProfiles = [] ∨ ∃ p, p ∈ f.getProfiles ∧ p ∈ active) ∧
    (∀ active : List String,
      isActive ["P1", "P2"] active = true ↔
        "P1" ∈ active ∨ "P2" ∈ active) := by
  constructor
  · intro f active
    rw [isActive]
    simp [List.isEmpty_iff, List.any_eq_true]
  · intro active
    rw [isActive]
    simp [List.any_eq_true]

end FanControl
